import Mathlib

/-!
# Verification of the SonarAI perception-feedback loop

Shallow embedding of the core of `sonar-gemini-nav`:

* `src/services/geminiService.ts` — remote call gateway (`generateWithFallback`,
  `analyzeFrame`, `transcribeAudio`);
* `src/utils/audioUtils.ts` — audio engine (`playSonarPing`, `playCautionSound`,
  `playRawPCM`);
* `src/App.tsx` — the current perception loop controller (`runGeminiCycle`,
  the unified render loop) and, from the older revisions kept in the repository
  (`src/unnamed/part_002`, `src/unnamed/part_003`), the `runNavigationLoop`
  controller and its recording `onstop` handler.

JavaScript numbers are modelled as `ℚ` (all the arithmetic involved — clamping,
division by 1000, division by 32768 — is exact in binary floating point for the
ranges in play); fallible code returns `Option`/`Except`; the cooperative event
loop is modelled as a step function over explicit controller states, one event
per synchronous segment between `await` points.
-/

/-! ## Data model (src/unnamed/part_001 = types.ts) -/

/-- `safety_status` enum from types.ts. -/
inductive Safety where
  | SAFE
  | CAUTION
  | STOP
deriving DecidableEq, Repr

/-- A detected region (`BoundingBox` in types.ts): label plus `box_2d`
`[ymin, xmin, ymax, xmax]`.  The response schema in geminiService.ts does not
list `box_2d` as required, and App.tsx guards against its absence, so the box
is modelled as optional. -/
structure Region where
  label : String
  box_2d : Option (ℚ × ℚ × ℚ × ℚ)
deriving DecidableEq, Repr

/-- `visual_debug` from types.ts. -/
structure VisualDebug where
  hazards : List Region
  safe_path : List Region
deriving DecidableEq, Repr

/-- `SonarResponse` from types.ts (the spec's ClassificationResult). -/
structure SonarResponse where
  safety_status : Safety
  reasoning_summary : String
  navigation_command : String
  stereo_pan : ℚ
  visual_debug : VisualDebug
deriving DecidableEq, Repr

/-! ## Audio engine (src/utils/audioUtils.ts) -/

/-- JavaScript `Math.min` on two numbers. -/
def jsMin (a b : ℚ) : ℚ := if a ≤ b then a else b

/-- JavaScript `Math.max` on two numbers. -/
def jsMax (a b : ℚ) : ℚ := if a ≤ b then b else a

/-- The observable configuration a single `playSonarPing` call gives to the
audio graph: oscillator frequency ramp, gain peak, and the pan value actually
applied (via `panner.pan.setValueAtTime` in the StereoPanner branch, via
`panner.setPosition(x, 0, -1)` in the PannerNode fallback branch). -/
structure PingConfig where
  freqStart : ℚ
  freqEnd : ℚ
  gainPeak : ℚ
  panApplied : ℚ
deriving DecidableEq, Repr

/-- `playSonarPing` from audioUtils.ts, lines 128–175.  `hasStereoPanner`
selects between the `ctx.createStereoPanner` branch and the `PannerNode`
fallback branch; both compute `Math.max(-1, Math.min(1, pan))` before use. -/
def playSonarPing (hasStereoPanner : Bool) (pan : ℚ) : PingConfig :=
  if hasStereoPanner then
    { freqStart := 800, freqEnd := 600, gainPeak := 3/10,
      panApplied := jsMax (-1) (jsMin 1 pan) }
  else
    { freqStart := 800, freqEnd := 600, gainPeak := 3/10,
      panApplied := jsMax (-1) (jsMin 1 pan) }

/-- The pan a single pulse of `playCautionSound` (audioUtils.ts, lines 69–126)
applies to the audio graph; both branches clamp exactly like `playSonarPing`. -/
def playCautionSoundPan (hasStereoPanner : Bool) (pan : ℚ) : ℚ :=
  if hasStereoPanner then jsMax (-1) (jsMin 1 pan)
  else jsMax (-1) (jsMin 1 pan)

/-! ## String helpers for the gateway

JavaScript's `String.prototype.replace` with a global literal pattern and empty
replacement, `String.prototype.includes`, and `String.prototype.split` are
translated to executable functions on `List Char`. -/

/-- `leadsWith pat l` is true iff `pat` is an initial segment of `l`
(the prefix test used when scanning for a pattern occurrence). -/
def leadsWith : List Char → List Char → Bool
  | [], _ => true
  | _ :: _, [] => false
  | p :: ps, c :: cs => p = c && leadsWith ps cs

/-- `removeAll pat l`: JavaScript `l.replace(/pat/g, "")` — delete every
leftmost non-overlapping occurrence of `pat` in `l`, scanning left to right.
(Only called with non-empty `pat`.) -/
def removeAll (pat : List Char) : List Char → List Char
  | [] => []
  | c :: cs =>
    if leadsWith pat (c :: cs) then removeAll pat (cs.drop (pat.length - 1))
    else c :: removeAll pat cs
termination_by l => l.length
decreasing_by
  · simp only [List.length_drop, List.length_cons]; omega
  · simp

/-- `hasOccur pat l`: JavaScript `l.includes(pat)`. -/
def hasOccur (pat : List Char) : List Char → Bool
  | [] => leadsWith pat []
  | c :: cs => leadsWith pat (c :: cs) || hasOccur pat cs

/-- geminiService.ts line 119:
`text.replace(/```json/g, "").replace(/```/g, "").trim()`. -/
def cleanText (s : String) : String :=
  (String.mk (removeAll "```".data (removeAll "```json".data s.data))).trim

/-- JavaScript `s.split(';')` on character lists. -/
def splitSemi : List Char → List (List Char)
  | [] => [[]]
  | c :: cs =>
    if c = ';' then [] :: splitSemi cs
    else
      match splitSemi cs with
      | [] => [[c]]
      | h :: t => (c :: h) :: t

/-! ## Remote call gateway (src/services/geminiService.ts) -/

/-- The error object a failed `ai.models.generateContent` call rejects with:
an optional HTTP-like `status` and an optional `message`
(read as `error.status` and `error.message` in `generateWithFallback`). -/
structure GenError where
  status : Option ℕ
  message : Option String
deriving DecidableEq, Repr

/-- The response object of a successful `ai.models.generateContent` call;
only its `text` field is consumed by `analyzeFrame`/`transcribeAudio`
(`none` models an absent/undefined text, `some ""` an empty one — both falsy). -/
structure GenResponse where
  text : Option String
deriving DecidableEq, Repr

/-- The request parameters `analyzeFrame`/`transcribeAudio` assemble:
inline data (base64 payload + MIME type) and the text prompt. -/
structure Req where
  mimeType : String
  data : String
  prompt : String
deriving DecidableEq, Repr

/-- geminiService.ts line 71: the retry condition of `generateWithFallback` —
`error.status === 429 || error.status === 503 || error.status === 500 ||
error.message?.includes("429")`. -/
def retryable (e : GenError) : Bool :=
  e.status == some 429 || e.status == some 503 || e.status == some 500 ||
    (match e.message with
     | some m => hasOccur "429".data m.data
     | none => false)

/-- `generateWithFallback` (geminiService.ts lines 58–87), with the behaviour
of the remote endpoint for each model supplied as a function from the request
to an outcome: try the primary model; on a retryable error retry once with the
fallback model, rethrowing its error; otherwise rethrow the primary error. -/
def generateWithFallback (primary fallback : Req → Except GenError GenResponse)
    (req : Req) : Except GenError GenResponse :=
  match primary req with
  | .ok r => .ok r
  | .error e =>
    if retryable e then
      match fallback req with
      | .ok r => .ok r
      | .error fe => .error fe
    else .error e

/-- The fixed safe-default result of `analyzeFrame`
(geminiService.ts lines 132–138). -/
def fallbackResponse : SonarResponse :=
  { safety_status := .STOP
    reasoning_summary := "AI Error. Proceed with caution."
    navigation_command := "Stop."
    stereo_pan := 0
    visual_debug := { hazards := [], safe_path := [] } }

/-- The reasons the `try` body of `analyzeFrame` can throw. -/
inductive JsError where
  | gen (e : GenError)
  | parseErr (raw : String)
  | noText
deriving Repr

/-- The prompt built at geminiService.ts lines 93–96. -/
def analyzePrompt (language : String) (customPrompt : Option String) : String :=
  let langInstruction := "Output in " ++ language ++ "."
  match customPrompt with
  | some c => c ++ " " ++ langInstruction
  | none => "Perform deep reasoning: Check safety, read signs, find safe path. "
      ++ langInstruction

/-- The `try` body of `analyzeFrame` (geminiService.ts lines 90–128), with
JavaScript `throw` modelled as `Except.error`.  `parse` stands for
`JSON.parse` followed by the cast to `SonarResponse` (`none` = a throwing
parse).  The truthiness test `if (response.text)` accepts exactly a present,
non-empty string. -/
def analyzeFrameTry (parse : String → Option SonarResponse)
    (primary fallback : Req → Except GenError GenResponse)
    (base64Image language : String) (customPrompt : Option String) :
    Except JsError SonarResponse :=
  let req : Req :=
    { mimeType := "image/jpeg", data := base64Image
      prompt := analyzePrompt language customPrompt }
  match generateWithFallback primary fallback req with
  | .error e => .error (.gen e)
  | .ok resp =>
    match resp.text with
    | none => .error .noText
    | some t =>
      if t = "" then .error .noText
      else
        match parse (cleanText t) with
        | some r => .ok r
        | none => .error (.parseErr t)

/-- `analyzeFrame` (geminiService.ts lines 89–140): the `try` body wrapped in
the outer `catch` that converts any thrown error into `fallbackResponse`.
Total by construction — it never throws to its caller. -/
def analyzeFrame (parse : String → Option SonarResponse)
    (primary fallback : Req → Except GenError GenResponse)
    (base64Image language : String) (customPrompt : Option String) :
    SonarResponse :=
  match analyzeFrameTry parse primary fallback base64Image language customPrompt with
  | .ok r => r
  | .error _ => fallbackResponse

/-- The request `transcribeAudio` (geminiService.ts lines 142–160) assembles:
the MIME type is sanitised with `mimeType.split(';')[0]`, the audio payload is
forwarded unchanged as inline data, and the language is embedded verbatim in
the fixed prompt. -/
def transcribeRequest (audioBase64 mimeType language : String) : Req :=
  { mimeType := String.mk ((splitSemi mimeType.data).headD [])
    data := audioBase64
    prompt := "Transcribe this audio strictly. Language: " ++ language ++
      ". Return only the transcription text." }

/-- The backtick character (code point 96), the first character of both fence
markers stripped by `analyzeFrame`. -/
def btick : Char := Char.ofNat 96

/-! ## Perception loop controllers

Two controllers live in the repository: `runGeminiCycle` in the current
`src/App.tsx`, and `runNavigationLoop` in the earlier revisions
(`src/unnamed/part_002`, `src/unnamed/part_003`).  Both run on the
single-threaded event loop; a scan tick runs synchronously from the guard
check up to the `await analyzeFrame(...)` call, and its continuation (the
feedback dispatch plus the `finally` block) runs later as a separate
synchronous segment.  Each segment is one event of the machines below. -/

/-- An audio cue dispatched by a controller. -/
inductive Cue where
  | beep (freq durationMs : ℕ) (wave : String)
  | cautionSound (pan : ℚ)
  | sonarPing (pan : ℚ)
deriving DecidableEq, Repr

/-- Observable controller state: React state (`appState = SCANNING`,
`emergencyLatch`), the `isProcessingRef` boolean lock, the number of remote
analysis calls currently in flight, the cumulative number of remote calls
made, the last stored response, and the logs of dispatched cues and speech
(text, `useHighQuality` flag). -/
structure LoopState where
  scanning : Bool
  latch : Bool
  lock : Bool
  inFlight : ℕ
  calls : ℕ
  lastResp : Option SonarResponse
  cues : List Cue
  speech : List (String × Bool)
deriving DecidableEq, Repr

/-- Start state: scanning just enabled, latch clear, no call in flight. -/
def initialScanning : LoopState :=
  { scanning := true, latch := false, lock := false, inFlight := 0,
    calls := 0, lastResp := none, cues := [], speech := [] }

/-- One scan tick of `runGeminiCycle` (src/App.tsx lines 247–262) up to the
`await`: the guard `appState !== SCANNING || isProcessingRef.current ||
emergencyLatch` drops the tick; a missing webcam/screenshot (`frameOk =
false`) drops it; otherwise the lock is set synchronously, the scanning blip
`playBeep(880, 50, 'sine')` fires, and the remote call starts. -/
def appTick (frameOk : Bool) (s : LoopState) : LoopState :=
  if s.scanning = false ∨ s.lock = true ∨ s.latch = true then s
  else if frameOk = false then s
  else
    { s with
      lock := true, inFlight := s.inFlight + 1, calls := s.calls + 1,
      cues := s.cues ++ [Cue.beep 880 50 "sine"] }

/-- The feedback `runGeminiCycle` dispatches for a response
(src/App.tsx lines 270–281): STOP → `playCautionSound(stereo_pan)` and
high-quality speech; CAUTION → `playSonarPing(stereo_pan)` and fast speech;
SAFE → `playSonarPing(stereo_pan)` and no speech.  Note this revision never
calls `setEmergencyLatch`. -/
def appDispatch (r : SonarResponse) : List Cue × List (String × Bool) :=
  match r.safety_status with
  | .STOP => ([Cue.cautionSound r.stereo_pan],
      [("STOP. " ++ r.reasoning_summary, true)])
  | .CAUTION => ([Cue.sonarPing r.stereo_pan],
      [("Caution. " ++ r.navigation_command, false)])
  | .SAFE => ([Cue.sonarPing r.stereo_pan], [])

/-- Completion of an in-flight `runGeminiCycle` call (src/App.tsx lines
264–288): store the response, dispatch feedback, then the `finally` block
clears the lock.  The latch is left untouched — `src/App.tsx` has no
`setEmergencyLatch(true)` call. -/
def appComplete (r : SonarResponse) (s : LoopState) : LoopState :=
  if s.inFlight = 0 then s
  else
    { s with
      lastResp := some r,
      cues := s.cues ++ (appDispatch r).1,
      speech := s.speech ++ (appDispatch r).2,
      lock := false, inFlight := s.inFlight - 1 }

/-- Events of the `runGeminiCycle` loop: an interval tick, or the resumption
of the in-flight call with the gateway's response. -/
inductive GemEv where
  | tick (frameOk : Bool)
  | complete (r : SonarResponse)

/-- One event step of the `runGeminiCycle` machine. -/
def appStep (s : LoopState) : GemEv → LoopState
  | .tick f => appTick f s
  | .complete r => appComplete r s

/-- Run the `runGeminiCycle` machine from `initialScanning`. -/
def appRun (evs : List GemEv) : LoopState := evs.foldl appStep initialScanning

/-- JavaScript `\s` on the characters appearing in these texts. -/
def isWs (c : Char) : Bool := c == ' ' || c == '\t' || c == '\n' || c == '\r'

/-- Count the maximal runs of non-whitespace characters; `inWord` records
whether the scan is currently inside such a run. -/
def countWordsAux : Bool → List Char → ℕ
  | _, [] => 0
  | inWord, c :: cs =>
    if isWs c then countWordsAux false cs
    else (if inWord then 0 else 1) + countWordsAux true cs

/-- Word counting of part_003 lines 252–256:
`combinedText.split(/\s+/).filter(w => w.length > 0).length` — the number of
maximal non-whitespace runs. -/
def wordCount (s : String) : ℕ := countWordsAux false s.data

/-- The spoken message of `runNavigationLoop` (part_003 lines 252–261):
command plus summary when the combination stays within ten words, otherwise
just the command. -/
def voiceMessage (r : SonarResponse) : String :=
  let combinedText :=
    if r.reasoning_summary ≠ "" then
      r.navigation_command ++ ". " ++ r.reasoning_summary
    else r.navigation_command
  if wordCount combinedText ≤ 10 ∧ r.reasoning_summary ≠ "" then combinedText
  else r.navigation_command

/-- One scan tick of `runNavigationLoop` (part_003 lines 233–244) up to the
`await`: same guard and lock discipline as `appTick`, without the blip. -/
def navTick (frameOk : Bool) (s : LoopState) : LoopState :=
  if s.scanning = false ∨ s.lock = true ∨ s.latch = true then s
  else if frameOk = false then s
  else { s with lock := true, inFlight := s.inFlight + 1, calls := s.calls + 1 }

/-- Completion of an in-flight `runNavigationLoop` call (part_003 lines
246–282): store the response; on STOP set the emergency latch and play the
sawtooth alarm beep, on CAUTION play the double-pulse `playCautionSound`, on
SAFE play the sonar ping; speak `voiceMessage`; the `finally` block clears
the lock. -/
def navComplete (r : SonarResponse) (s : LoopState) : LoopState :=
  if s.inFlight = 0 then s
  else
    let s' := { s with
      lastResp := some r, lock := false, inFlight := s.inFlight - 1 }
    match r.safety_status with
    | .STOP =>
      { s' with
        latch := true,
        cues := s.cues ++ [Cue.beep 1000 500 "sawtooth"],
        speech := s.speech ++ [(voiceMessage r, false)] }
    | .CAUTION =>
      { s' with
        cues := s.cues ++ [Cue.cautionSound r.stereo_pan],
        speech := s.speech ++ [(voiceMessage r, false)] }
    | .SAFE =>
      { s' with
        cues := s.cues ++ [Cue.sonarPing r.stereo_pan],
        speech := s.speech ++ [(voiceMessage r, false)] }

/-- `toggleNavigation` (part_003 lines 347–366): when latched the button is
RESET (clear latch, go idle, clear the last response); otherwise it toggles
scanning. -/
def navToggle (s : LoopState) : LoopState :=
  if s.latch = true then
    { s with
      latch := false, scanning := false, lastResp := none,
      speech := s.speech ++ [("System Reset", false)] }
  else if s.scanning = true then
    { s with
      scanning := false, lastResp := none,
      speech := s.speech ++ [("System Paused", false)] }
  else
    { s with
      scanning := true,
      speech := s.speech ++ [("System Active. Scanning.", false)] }

/-- Events of the `runNavigationLoop` machine: tick, completion, or a press
of the start/stop/reset button. -/
inductive NavEv where
  | tick (frameOk : Bool)
  | complete (r : SonarResponse)
  | toggle

/-- One event step of the `runNavigationLoop` machine. -/
def navStep (s : LoopState) : NavEv → LoopState
  | .tick f => navTick f s
  | .complete r => navComplete r s
  | .toggle => navToggle s

/-- Run the `runNavigationLoop` machine from `initialScanning`. -/
def navRun (evs : List NavEv) : LoopState := evs.foldl navStep initialScanning

/-- A concrete STOP classification, used to drive the controllers. -/
def stopResponseEx : SonarResponse :=
  { safety_status := .STOP, reasoning_summary := "Hazard ahead.",
    navigation_command := "Stop.", stereo_pan := 0,
    visual_debug := { hazards := [], safe_path := [] } }

/-- The CAUTION classification of the spec's scenario:
`{safety_status:"CAUTION", stereo_pan:-0.5, navigation_command:"Move right"}`. -/
def cautionResponseEx : SonarResponse :=
  { safety_status := .CAUTION, reasoning_summary := "",
    navigation_command := "Move right", stereo_pan := -(1/2),
    visual_debug := { hazards := [], safe_path := [] } }

/-! ## Visual-debug overlay (src/App.tsx, unified render loop) -/

/-- One box drawn on the overlay canvas. -/
structure DrawCmd where
  x : ℚ
  y : ℚ
  w : ℚ
  h : ℚ
  color : String
  label : String
deriving DecidableEq, Repr

/-- The per-region drawing of the render loop (src/App.tsx lines 211–233):
a region whose `box_2d` is absent is skipped (`if (!h.box_2d) return;`);
otherwise its 0–1000 coordinates are scaled to the canvas and drawn. -/
def renderRegions (cw ch : ℚ) (color : String) (mkLabel : Region → String) :
    List Region → List DrawCmd
  | [] => []
  | r :: rest =>
    match r.box_2d with
    | none => renderRegions cw ch color mkLabel rest
    | some (ymin, xmin, ymax, xmax) =>
      { x := xmin / 1000 * cw, y := ymin / 1000 * ch,
        w := (xmax - xmin) / 1000 * cw, h := (ymax - ymin) / 1000 * ch,
        color := color, label := mkLabel r } ::
        renderRegions cw ch color mkLabel rest

/-- The Gemini layer of the render loop: hazards in red with a `HAZARD:`
label, safe-path regions in green with `p.label || 'PATH'`. -/
def renderOverlay (cw ch : ℚ) (resp : SonarResponse) : List DrawCmd :=
  renderRegions cw ch "#FF3333" (fun hz => "HAZARD: " ++ hz.label)
      resp.visual_debug.hazards ++
    renderRegions cw ch "#00FF66"
      (fun p => if p.label = "" then "PATH" else p.label)
      resp.visual_debug.safe_path

/-! ## Recording stop handler (src/unnamed/part_002, `onstop`) -/

/-- Outcome of the `mediaRecorder.onstop` handler. -/
inductive StopOutcome where
  | aborted
  | transcribed (blobBytes : ℕ)
deriving DecidableEq, Repr

/-- The `onstop` handler of `startListening` (part_002 lines 358–389), applied
to the sizes in bytes of the captured audio chunks: it aborts only when
`audioChunksRef.current.length === 0`; otherwise it builds the blob from all
chunks and calls `transcribeAudio` on it. -/
def onstopHandler (chunkSizes : List ℕ) : StopOutcome :=
  if chunkSizes.length = 0 then .aborted
  else .transcribed chunkSizes.sum

/-! ## Base64 and PCM (src/utils/audioUtils.ts, `playRawPCM`) -/

/-- The base64 alphabet. -/
def b64Chars : List Char :=
  "ABCDEFGHIJKLMNOPQRSTUVWXYZabcdefghijklmnopqrstuvwxyz0123456789+/".data

/-- Character for a 6-bit value. -/
def sextetChar (n : ℕ) : Char := b64Chars.getD n '?'

/-- `btoa` on a byte list: standard base64 with `'='` padding, as produced by
the browser encoder whose output `playRawPCM` receives. -/
def btoaBytes : List ℕ → List Char
  | [] => []
  | [a] => [sextetChar (a / 4), sextetChar (a % 4 * 16), '=', '=']
  | [a, b] => [sextetChar (a / 4), sextetChar (a % 4 * 16 + b / 16),
      sextetChar (b % 16 * 4), '=']
  | a :: b :: c :: rest =>
    sextetChar (a / 4) :: sextetChar (a % 4 * 16 + b / 16) ::
      sextetChar (b % 16 * 4 + c / 64) :: sextetChar (c % 64) ::
      btoaBytes rest

/-- Index of a character in the base64 alphabet. -/
def charIndex (c : Char) : ℕ := b64Chars.indexOf c

/-- `atob` into a byte list (audioUtils.ts lines 41–46 turn the decoded
binary string into a `Uint8Array` byte-for-byte). -/
def atobChars : List Char → List ℕ
  | c1 :: c2 :: c3 :: c4 :: rest =>
    let n1 := charIndex c1
    let n2 := charIndex c2
    if c3 = '=' then [n1 * 4 + n2 / 16]
    else
      let n3 := charIndex c3
      if c4 = '=' then [n1 * 4 + n2 / 16, n2 % 16 * 16 + n3 / 4]
      else (n1 * 4 + n2 / 16) :: (n2 % 16 * 16 + n3 / 4) ::
        (n3 % 4 * 64 + charIndex c4) :: atobChars rest
  | _ => []

/-- Reading a byte buffer as a little-endian `Int16Array`
(audioUtils.ts line 49): pairs of bytes become signed 16-bit values; a
trailing odd byte is dropped. -/
def bytesToInt16 : List ℕ → List ℤ
  | lo :: hi :: rest =>
    (let u := lo + 256 * hi; if u < 32768 then (u : ℤ) else (u : ℤ) - 65536) ::
      bytesToInt16 rest
  | _ => []

/-- The normalisation loop of `playRawPCM` (audioUtils.ts lines 52–55):
`float32Data[i] = int16Data[i] / 32768.0`.  Exact in binary floating point,
so modelled in `ℚ`. -/
def playRawPCMFloats (base64Data : String) : List ℚ :=
  List.map (fun i : ℤ => (i : ℚ) / 32768) (bytesToInt16 (atobChars base64Data.data))

/-- Little-endian encoding of one 16-bit sample (two's complement). -/
def int16ToBytes (i : ℤ) : List ℕ :=
  [(i % 65536).toNat % 256, (i % 65536).toNat / 256]

/-- A sample sequence as 16-bit little-endian PCM bytes. -/
def pcmEncode : List ℤ → List ℕ
  | [] => []
  | s :: rest => int16ToBytes s ++ pcmEncode rest

/-- A sample sequence encoded as the base64 string handed to `playRawPCM`. -/
def pcmToBase64 (samples : List ℤ) : String :=
  String.mk (btoaBytes (pcmEncode samples))

/-- Specification-side definition for C10, following the claim's words: the
prefix of a character list strictly before its first `';'`. -/
def upToSemi : List Char → List Char
  | [] => []
  | c :: cs => if c = ';' then [] else c :: upToSemi cs

/-! ## Theorems -/

/-! ### String lemmas for the gateway -/

theorem leadsWith_self_append (l rest : List Char) :
    leadsWith l (l ++ rest) = true := by
  induction l with
  | nil => simp [leadsWith]
  | cons c cs ih => simp [leadsWith, ih]

theorem leadsWith_length_le :
    ∀ {pat l : List Char}, leadsWith pat l = true → pat.length ≤ l.length
  | [], _, _ => by simp
  | _ :: _, [], h => by simp [leadsWith] at h
  | p :: ps, c :: cs, h => by
    simp only [leadsWith, Bool.and_eq_true] at h
    simpa using leadsWith_length_le h.2

theorem removeAll_nil (pat : List Char) : removeAll pat [] = [] := by
  simp [removeAll]

theorem removeAll_cons (pat : List Char) (c : Char) (cs : List Char) :
    removeAll pat (c :: cs) =
      if leadsWith pat (c :: cs) then removeAll pat (cs.drop (pat.length - 1))
      else c :: removeAll pat cs := by
  rw [removeAll]

/-- A list shorter than the pattern contains no occurrence, so `removeAll`
leaves it unchanged. -/
theorem removeAll_short {pat : List Char} :
    ∀ l : List Char, l.length < pat.length → removeAll pat l = l := by
  intro l
  induction l with
  | nil => intro _; exact removeAll_nil pat
  | cons c cs ih =>
    intro hlen
    have hld : leadsWith pat (c :: cs) = false := by
      cases hl : leadsWith pat (c :: cs)
      · rfl
      · exact absurd (leadsWith_length_le hl) (by omega)
    rw [removeAll_cons, hld]
    simp only [Bool.false_eq_true, if_false]
    have : cs.length < pat.length := by simp at hlen ⊢; omega
    rw [ih this]

/-- `removeAll` deletes a pattern occurrence sitting at the front. -/
theorem removeAll_append_self (pat : List Char) (hne : pat ≠ []) (rest : List Char) :
    removeAll pat (pat ++ rest) = removeAll pat rest := by
  match pat, hne with
  | p :: ps, _ =>
    have hld : leadsWith (p :: ps) (p :: (ps ++ rest)) = true := by
      simpa using leadsWith_self_append (p :: ps) rest
    rw [List.cons_append, removeAll_cons, if_pos hld]
    simp only [List.length_cons, Nat.add_sub_cancel]
    rw [List.drop_left]

/-- Characters that cannot start the pattern are copied through unchanged. -/
theorem removeAll_append_left {pat : List Char} (hb : pat.head? = some btick)
    (pre suf : List Char) (hpre : ∀ c ∈ pre, c ≠ btick) :
    removeAll pat (pre ++ suf) = pre ++ removeAll pat suf := by
  induction pre with
  | nil => simp
  | cons c cs ih =>
    have hc : c ≠ btick := hpre c (by simp)
    have hld : leadsWith pat (c :: (cs ++ suf)) = false := by
      match pat, hb with
      | p :: ps, hb =>
        have hp : p = btick := by simpa using hb
        subst hp
        simp only [leadsWith, Bool.and_eq_false_iff]
        left
        simpa using fun h => hc h.symm
    rw [List.cons_append, removeAll_cons, hld]
    simp only [Bool.false_eq_true, if_false, List.cons_append, List.cons.injEq,
      true_and]
    exact ih (fun x hx => hpre x (by simp [hx]))

/-- Stripping the markdown fences from a fenced payload and trimming yields
exactly the trimmed payload, and a fence-free payload is left untouched by the
stripping. -/
theorem cleanText_wrapped (payload : String) (h : ∀ c ∈ payload.data, c ≠ btick) :
    cleanText ("```json" ++ payload ++ "```") = payload.trim ∧
    cleanText payload = payload.trim := by
  have hjson : ("```json" : String).data.head? = some btick := by decide
  have hfence : ("```" : String).data.head? = some btick := by decide
  constructor
  · have hdata : ("```json" ++ payload ++ "```" : String).data
        = ("```json" : String).data ++ (payload.data ++ ("```" : String).data) := by
      simp [String.data_append]
    have h1 : removeAll ("```json" : String).data
        (("```json" : String).data ++ (payload.data ++ ("```" : String).data))
        = payload.data ++ ("```" : String).data := by
      rw [removeAll_append_self _ (by decide),
        removeAll_append_left hjson payload.data _ h,
        removeAll_short _ (by decide)]
    have h2 : removeAll ("```" : String).data
        (payload.data ++ ("```" : String).data) = payload.data := by
      rw [removeAll_append_left hfence payload.data _ h]
      have := removeAll_append_self ("```" : String).data (by decide) []
      simp only [List.append_nil] at this
      rw [this, removeAll_nil, List.append_nil]
    show (String.mk (removeAll _ (removeAll _ _))).trim = _
    rw [hdata, h1, h2]
  · have hA : removeAll ("```json" : String).data payload.data = payload.data := by
      have := removeAll_append_left hjson payload.data [] h
      simpa [removeAll_nil] using this
    have hB : removeAll ("```" : String).data payload.data = payload.data := by
      have := removeAll_append_left hfence payload.data [] h
      simpa [removeAll_nil] using this
    show (String.mk (removeAll _ (removeAll _ payload.data))).trim = _
    rw [hA, hB]

/-! ### C10 lemmas -/

theorem splitSemi_ne_nil (l : List Char) : splitSemi l ≠ [] := by
  induction l with
  | nil => simp [splitSemi]
  | cons c cs ih =>
    by_cases hc : c = ';'
    · simp [splitSemi, hc]
    · simp only [splitSemi, if_neg hc]
      cases h : splitSemi cs <;> simp

theorem splitSemi_headD (l : List Char) :
    (splitSemi l).headD [] = upToSemi l := by
  induction l with
  | nil => simp [splitSemi, upToSemi]
  | cons c cs ih =>
    by_cases hc : c = ';'
    · simp [splitSemi, upToSemi, hc]
    · simp only [splitSemi, upToSemi, if_neg hc]
      cases h : splitSemi cs with
      | nil => exact absurd h (splitSemi_ne_nil cs)
      | cons hh tt =>
        rw [h] at ih
        simp at ih
        simp [ih]

theorem upToSemi_of_not_mem (l : List Char) (h : ';' ∉ l) : upToSemi l = l := by
  induction l with
  | nil => rfl
  | cons c cs ih =>
    have hc : c ≠ ';' := fun hc => h (by simp [hc])
    rw [upToSemi, if_neg hc, ih (fun hm => h (by simp [hm]))]

/-- C4: the Audio Engine clamps every pan input to [-1, 1] before use, in both
panning branches of `playSonarPing` (and of `playCautionSound`), and
`sonarPing(5.0)` behaves identically to `sonarPing(1.0)`. -/
theorem sonarPing_clamps_pan (b : Bool) (p : ℚ) :
    (playSonarPing b p).panApplied = max (-1) (min 1 p) ∧
    playSonarPing b 5 = playSonarPing b 1 ∧
    -1 ≤ (playSonarPing b p).panApplied ∧ (playSonarPing b p).panApplied ≤ 1 ∧
    playCautionSoundPan b p = max (-1) (min 1 p) := by
  have hmin : jsMin 1 p = min 1 p := (min_def 1 p).symm
  have hmax : jsMax (-1) (jsMin 1 p) = max (-1) (min 1 p) := by
    rw [hmin, max_def]
    unfold jsMax
    rcases le_total (-1 : ℚ) (min 1 p) with h | h
    · simp [h]
    · rcases eq_or_lt_of_le h with h' | h'
      · simp [h', le_of_eq h'.symm]
      · simp [not_le.mpr h', le_of_lt h']
  refine ⟨?_, ?_, ?_, ?_, ?_⟩
  · cases b <;> simp [playSonarPing, hmax]
  · cases b <;> simp [playSonarPing, jsMin, jsMax]
  · cases b <;> simp [playSonarPing, hmax]
  · cases b <;> simp [playSonarPing, hmax]
  · cases b <;> simp [playCautionSoundPan, hmax]

/-! ### Claim theorems for the gateway -/

/-- C1: `analyzeFrame` is total — the embedding returns a `SonarResponse` for
every image, language, optional prompt, remote behaviour and parser — and
whenever the remote call fails on both the primary and the fallback model, or
the response text fails to parse, the result is exactly the fixed safe default
(`safety_status = STOP`, `stereo_pan = 0`, empty `hazards`/`safe_path`), never
a SAFE result. -/
theorem analyzeFrame_failsafe
    (parse : String → Option SonarResponse)
    (primary fallback : Req → Except GenError GenResponse)
    (img lang : String) (cp : Option String)
    (hp : ∀ r, ∃ e, primary r = Except.error e)
    (hf : ∀ r, ∃ e, fallback r = Except.error e) :
    analyzeFrame parse primary fallback img lang cp = fallbackResponse ∧
    fallbackResponse.safety_status = Safety.STOP ∧
    fallbackResponse.stereo_pan = 0 ∧
    fallbackResponse.visual_debug.hazards = [] ∧
    fallbackResponse.visual_debug.safe_path = [] ∧
    fallbackResponse.safety_status ≠ Safety.SAFE ∧
    (∀ t : String, parse (cleanText t) = none →
      analyzeFrame parse (fun _ => Except.ok ⟨some t⟩) fallback img lang cp
        = fallbackResponse) := by
  refine ⟨?_, rfl, rfl, rfl, rfl, by decide, ?_⟩
  · obtain ⟨e, he⟩ := hp
      ⟨"image/jpeg", img, analyzePrompt lang cp⟩
    obtain ⟨fe, hfe⟩ := hf
      ⟨"image/jpeg", img, analyzePrompt lang cp⟩
    cases hr : retryable e <;>
      simp [analyzeFrame, analyzeFrameTry, generateWithFallback, he, hfe, hr]
  · intro t hpt
    by_cases ht : t = "" <;>
      simp [analyzeFrame, analyzeFrameTry, generateWithFallback, ht, hpt]

/-- Witness for C1 at a concrete total failure: a primary model failing with a
retryable 500 and a fallback model failing with a 503 yield exactly the safe
default, and a parser that always fails also yields it. -/
theorem analyzeFrame_failsafe_witness :
    analyzeFrame (fun _ => none) (fun _ => Except.error ⟨some 500, none⟩)
      (fun _ => Except.error ⟨some 503, none⟩) "imgdata" "English" none
      = fallbackResponse ∧
    analyzeFrame (fun _ => none) (fun _ => Except.ok ⟨some "not json"⟩)
      (fun _ => Except.error ⟨some 503, none⟩) "imgdata" "English" none
      = fallbackResponse := by
  have h := analyzeFrame_failsafe (fun _ => none)
    (fun _ => Except.error ⟨some 500, none⟩)
    (fun _ => Except.error ⟨some 503, none⟩) "imgdata" "English" none
    (fun r => ⟨⟨some 500, none⟩, rfl⟩) (fun r => ⟨⟨some 503, none⟩, rfl⟩)
  exact ⟨h.1, h.2.2.2.2.2.2 "not json" rfl⟩

/-- C7: a remote response whose JSON payload arrives wrapped in markdown code
fences is cleaned to the same text as the bare payload, so `analyzeFrame`
produces the same result either way; and if the text still fails to parse
after stripping, the result is the safe default. -/
theorem analyzeFrame_strips_fences
    (parse : String → Option SonarResponse)
    (fallback : Req → Except GenError GenResponse)
    (img lang : String) (cp : Option String)
    (payload : String)
    (hnb : ∀ c ∈ payload.data, c ≠ btick)
    (hne : payload ≠ "") :
    cleanText ("```json" ++ payload ++ "```") = cleanText payload ∧
    analyzeFrame parse (fun _ => Except.ok ⟨some ("```json" ++ payload ++ "```")⟩)
        fallback img lang cp
      = analyzeFrame parse (fun _ => Except.ok ⟨some payload⟩) fallback img lang cp ∧
    (∀ t : String, parse (cleanText t) = none →
      analyzeFrame parse (fun _ => Except.ok ⟨some t⟩) fallback img lang cp
        = fallbackResponse) := by
  obtain ⟨hw, hp⟩ := cleanText_wrapped payload hnb
  have hclean : cleanText ("```json" ++ payload ++ "```") = cleanText payload :=
    hw.trans hp.symm
  refine ⟨hclean, ?_, ?_⟩
  · have hwne : ("```json" ++ payload ++ "```" : String) ≠ "" := by
      intro hcon
      have : ("```json" ++ payload ++ "```" : String).data = [] := by
        rw [hcon]
      simp [String.data_append] at this
    simp only [analyzeFrame, analyzeFrameTry, generateWithFallback,
      if_neg hwne, if_neg hne, hclean]
    cases parse (cleanText payload) <;> rfl
  · intro t hpt
    by_cases ht : t = "" <;>
      simp [analyzeFrame, analyzeFrameTry, generateWithFallback, ht, hpt]

/-- Witness for C7: the fence-wrapped payload `[1,2]` cleans to the same
text as the bare payload, and with an always-failing parser the result is the
safe default. -/
theorem analyzeFrame_strips_fences_witness :
    cleanText ("```json" ++ "[1,2]" ++ "```") = cleanText "[1,2]" ∧
    analyzeFrame (fun _ => none)
        (fun _ => Except.ok ⟨some ("```json" ++ "[1,2]" ++ "```")⟩)
        (fun _ => Except.error ⟨some 500, none⟩) "imgdata" "English" none
      = analyzeFrame (fun _ => none) (fun _ => Except.ok ⟨some "[1,2]"⟩)
        (fun _ => Except.error ⟨some 500, none⟩) "imgdata" "English" none := by
  have h := analyzeFrame_strips_fences (fun _ => none)
    (fun _ => Except.error ⟨some 500, none⟩) "imgdata" "English" none
    "[1,2]" (by decide) (by decide)
  exact ⟨h.1, h.2.1⟩

/-- C10: `transcribeAudio` forwards the audio payload and the language
unchanged, and forwards as MIME type exactly the prefix of the input MIME
string before its first `';'`; an input without `';'` is forwarded as-is. -/
theorem transcribeAudio_sanitizes_mime (audio m lang : String) :
    (transcribeRequest audio m lang).data = audio ∧
    (transcribeRequest audio m lang).prompt =
      "Transcribe this audio strictly. Language: " ++ lang ++
        ". Return only the transcription text." ∧
    (transcribeRequest audio m lang).mimeType.data = upToSemi m.data ∧
    (';' ∉ m.data → (transcribeRequest audio m lang).mimeType = m) := by
  refine ⟨rfl, rfl, ?_, ?_⟩
  · show (String.mk ((splitSemi m.data).headD [])).data = _
    rw [splitSemi_headD]
  · intro hm
    show String.mk ((splitSemi m.data).headD []) = m
    rw [splitSemi_headD, upToSemi_of_not_mem m.data hm]

/-- Witness for C10: `"audio/webm;codecs=opus"` is forwarded as
`"audio/webm"`-style prefix data, and `"audio/mp4"` (no `';'`) is forwarded
as-is, with the audio payload unchanged. -/
theorem transcribeAudio_sanitizes_mime_witness :
    (transcribeRequest "QUJD" "audio/webm;codecs=opus" "English").data = "QUJD" ∧
    (transcribeRequest "QUJD" "audio/mp4" "English").mimeType = "audio/mp4" :=
  ⟨(transcribeAudio_sanitizes_mime "QUJD" "audio/webm;codecs=opus" "English").1,
    (transcribeAudio_sanitizes_mime "QUJD" "audio/mp4" "English").2.2.2
      (by decide)⟩

/-! ### Controller lemmas and claim theorems -/

theorem appStep_inv (s : LoopState) (e : GemEv)
    (h1 : s.inFlight ≤ 1) (h2 : s.lock = true ↔ s.inFlight = 1) :
    (appStep s e).inFlight ≤ 1 ∧
      ((appStep s e).lock = true ↔ (appStep s e).inFlight = 1) := by
  cases e with
  | tick f =>
    simp only [appStep, appTick]
    split_ifs with hg hf
    · exact ⟨h1, h2⟩
    · exact ⟨h1, h2⟩
    · have hlock : ¬ s.lock = true := fun hl => hg (Or.inr (Or.inl hl))
      have hne : s.inFlight ≠ 1 := fun h => hlock (h2.mpr h)
      have hz : s.inFlight = 0 := by omega
      simp [hz]
  | complete r =>
    simp only [appStep, appComplete]
    split_ifs with h0
    · exact ⟨h1, h2⟩
    · have h1' : s.inFlight = 1 := by omega
      simp [h1']

theorem foldl_appStep_inv :
    ∀ (evs : List GemEv) (s : LoopState), s.inFlight ≤ 1 →
      (s.lock = true ↔ s.inFlight = 1) →
      (evs.foldl appStep s).inFlight ≤ 1 ∧
        ((evs.foldl appStep s).lock = true ↔ (evs.foldl appStep s).inFlight = 1)
  | [], _, h1, h2 => ⟨h1, h2⟩
  | e :: evs, s, h1, h2 => by
    have h := appStep_inv s e h1 h2
    simpa using foldl_appStep_inv evs (appStep s e) h.1 h.2

/-- C3: single-flight — along every event sequence of the `runGeminiCycle`
loop at most one remote analysis call is in flight, and a tick that finds the
boolean lock held leaves the state exactly unchanged (no remote call, no
cues, no speech — dropped, not queued). -/
theorem runGeminiCycle_single_flight (evs : List GemEv) (f : Bool) :
    (appRun evs).inFlight ≤ 1 ∧
    ((appRun evs).lock = true → appTick f (appRun evs) = appRun evs) := by
  have h := foldl_appStep_inv evs initialScanning (by simp [initialScanning])
    (by simp [initialScanning])
  exact ⟨h.1, fun hl => by simp [appTick, hl]⟩

/-- Witness for C3: after a first tick launches a call, the lock is held, the
single in-flight call is within the bound, and a second tick is a no-op. -/
theorem runGeminiCycle_single_flight_witness :
    (appRun [GemEv.tick true]).inFlight ≤ 1 ∧
    appTick true (appRun [GemEv.tick true]) = appRun [GemEv.tick true] := by
  have h := runGeminiCycle_single_flight [GemEv.tick true] true
  exact ⟨h.1, h.2 (by decide)⟩

/-- C2 (divergence evidence): in the current `src/App.tsx`, a scan cycle whose
result is STOP leaves `emergencyLatch` false and the next tick starts a second
remote analysis call; in the `runNavigationLoop` revision cited by the claim
(part_003) the same cycle sets the latch, a further tick is dropped, and after
the reset press followed by a start press scanning resumes and the next tick
makes the second call. -/
theorem emergency_latch_divergence :
    (appRun [GemEv.tick true, GemEv.complete stopResponseEx]).latch = false ∧
    (appRun [GemEv.tick true, GemEv.complete stopResponseEx,
        GemEv.tick true]).calls = 2 ∧
    (navRun [NavEv.tick true, NavEv.complete stopResponseEx]).latch = true ∧
    (navRun [NavEv.tick true, NavEv.complete stopResponseEx,
        NavEv.tick true]).calls = 1 ∧
    (navRun [NavEv.tick true, NavEv.complete stopResponseEx, NavEv.tick true,
        NavEv.toggle, NavEv.toggle, NavEv.tick true]).calls = 2 := by
  refine ⟨rfl, rfl, rfl, rfl, rfl⟩

/-- C5 (divergence evidence): for the spec's CAUTION scenario
(`stereo_pan = -0.5`, command "Move right"), the current `src/App.tsx`
dispatches the single sonar ping — the same cue as SAFE — and plays the
double-pulse `playCautionSound` on STOP instead, while the cited
`runNavigationLoop` revision dispatches the caution double-pulse panned left
together with the spoken command, reserving the ping for SAFE. -/
theorem caution_cue_divergence :
    appDispatch cautionResponseEx
      = ([Cue.sonarPing (-(1/2))], [("Caution. Move right", false)]) ∧
    (appDispatch stopResponseEx).1 = [Cue.cautionSound 0] ∧
    (navRun [NavEv.tick true, NavEv.complete cautionResponseEx]).cues
      = [Cue.cautionSound (-(1/2))] ∧
    (navRun [NavEv.tick true, NavEv.complete cautionResponseEx]).speech
      = [("Move right", false)] ∧
    (navRun [NavEv.tick true,
        NavEv.complete { cautionResponseEx with safety_status := .SAFE }]).cues
      = [Cue.sonarPing (-(1/2))] := by
  refine ⟨rfl, rfl, rfl, rfl, rfl⟩

/-- C6 counterexample: a finalized recording consisting of a single
1000-byte chunk — below the claimed 1KB minimum byte threshold — is **not**
treated as noise: the `onstop` handler calls the remote transcription
service on it. -/
theorem onstop_short_recording_transcribes :
    onstopHandler [1000] = StopOutcome.transcribed 1000 ∧ 1000 < 1024 := by
  refine ⟨rfl, by norm_num⟩

/-- C6 (amended): the `onstop` handler aborts exactly when the chunk list is
empty; any recording with at least one data chunk — of any byte size — is
sent to the remote transcription service, with no byte-size threshold. -/
theorem onstop_no_byte_threshold (chunkSizes : List ℕ) (n : ℕ) :
    (onstopHandler chunkSizes = StopOutcome.aborted ↔ chunkSizes = []) ∧
    onstopHandler [n] = StopOutcome.transcribed n := by
  constructor
  · cases chunkSizes <;> simp [onstopHandler]
  · rfl

/-- C9: the visual-debug overlay skips every region whose `box_2d` is absent —
prepending a boxless hazard or safe-path region leaves the drawn overlay
unchanged (rendering is total, so it cannot crash), and the number of drawn
boxes is exactly the number of regions that do carry a box. -/
theorem overlay_skips_absent_boxes (cw ch : ℚ) (lab lab2 : String)
    (resp : SonarResponse) :
    renderOverlay cw ch
        { resp with
          visual_debug :=
            { hazards := ⟨lab, none⟩ :: resp.visual_debug.hazards,
              safe_path := resp.visual_debug.safe_path } }
      = renderOverlay cw ch resp ∧
    renderOverlay cw ch
        { resp with
          visual_debug :=
            { hazards := resp.visual_debug.hazards,
              safe_path := ⟨lab2, none⟩ :: resp.visual_debug.safe_path } }
      = renderOverlay cw ch resp ∧
    (∀ (color : String) (mkLabel : Region → String) (rs : List Region),
      (renderRegions cw ch color mkLabel rs).length
        = (rs.filter fun r => r.box_2d.isSome).length) := by
  refine ⟨rfl, rfl, fun color mkLabel rs => ?_⟩
  induction rs with
  | nil => rfl
  | cons r rest ih =>
    cases hb : r.box_2d with
    | none => simpa [renderRegions, hb, List.filter] using ih
    | some q =>
      obtain ⟨ymin, xmin, ymax, xmax⟩ := q
      simpa [renderRegions, hb, List.filter] using ih

/-! ### Base64 and PCM lemmas (C8) -/

theorem charIndex_sextetChar : ∀ i : Fin 64, charIndex (sextetChar i.val) = i.val := by
  decide

theorem sextetChar_ne_pad : ∀ i : Fin 64, sextetChar i.val ≠ '=' := by
  decide

theorem charIndex_sextetChar' (n : ℕ) (h : n < 64) :
    charIndex (sextetChar n) = n := charIndex_sextetChar ⟨n, h⟩

theorem sextetChar_ne_pad' (n : ℕ) (h : n < 64) :
    sextetChar n ≠ '=' := sextetChar_ne_pad ⟨n, h⟩

/-- Decoding inverts encoding on byte lists. -/
theorem atob_btoa : ∀ l : List ℕ, (∀ x ∈ l, x < 256) →
    atobChars (btoaBytes l) = l
  | [], _ => rfl
  | [a], h => by
    have ha : a < 256 := h a (by simp)
    simp only [btoaBytes, atobChars, if_pos]
    rw [charIndex_sextetChar' _ (by omega), charIndex_sextetChar' _ (by omega)]
    simp only [List.cons.injEq, and_true]
    omega
  | [a, b], h => by
    have ha : a < 256 := h a (by simp)
    have hb : b < 256 := h b (by simp)
    simp only [btoaBytes, atobChars]
    rw [if_neg (sextetChar_ne_pad' _ (by omega)), if_pos trivial]
    rw [charIndex_sextetChar' _ (by omega), charIndex_sextetChar' _ (by omega),
      charIndex_sextetChar' _ (by omega)]
    simp only [List.cons.injEq, and_true]
    omega
  | a :: b :: c :: rest, h => by
    have ha : a < 256 := h a (by simp)
    have hb : b < 256 := h b (by simp)
    have hc : c < 256 := h c (by simp)
    have ih := atob_btoa rest (fun x hx => h x (by simp [hx]))
    simp only [btoaBytes, atobChars]
    rw [if_neg (sextetChar_ne_pad' _ (by omega)),
      if_neg (sextetChar_ne_pad' _ (by omega))]
    rw [charIndex_sextetChar' _ (by omega), charIndex_sextetChar' _ (by omega),
      charIndex_sextetChar' _ (by omega), charIndex_sextetChar' _ (by omega), ih]
    simp only [List.cons.injEq, and_true]
    omega

theorem pcmEncode_bytes_lt : ∀ samples : List ℤ, ∀ x ∈ pcmEncode samples, x < 256
  | [], x, hx => by simp [pcmEncode] at hx
  | s :: rest, x, hx => by
    have h0 : (0 : ℤ) ≤ s % 65536 := Int.emod_nonneg s (by norm_num)
    have h1 : s % 65536 < 65536 := Int.emod_lt_of_pos s (by norm_num)
    have h2 : (s % 65536).toNat < 65536 := by omega
    simp only [pcmEncode] at hx
    rcases List.mem_append.mp hx with hm | hm
    · simp only [int16ToBytes, List.mem_cons, List.not_mem_nil, or_false] at hm
      rcases hm with hm | hm <;> subst hm
      · exact Nat.mod_lt _ (by norm_num)
      · omega
    · exact pcmEncode_bytes_lt rest x hm

/-- Reading the little-endian bytes of an in-range sample sequence back as
signed 16-bit values recovers the samples. -/
theorem bytesToInt16_pcmEncode : ∀ samples : List ℤ,
    (∀ s ∈ samples, -32768 ≤ s ∧ s < 32768) →
    bytesToInt16 (pcmEncode samples) = samples
  | [], _ => rfl
  | s :: rest, h => by
    have hs := h s (by simp)
    have ih := bytesToInt16_pcmEncode rest (fun x hx => h x (by simp [hx]))
    have h0 : (0 : ℤ) ≤ s % 65536 := Int.emod_nonneg s (by norm_num)
    have hu : ((s % 65536).toNat : ℤ) = s % 65536 := Int.toNat_of_nonneg h0
    simp only [pcmEncode, int16ToBytes, List.cons_append, List.nil_append,
      bytesToInt16, ih, List.cons.injEq, and_true]
    rw [Nat.mod_add_div]
    split_ifs with hlt <;> refine ⟨by omega, by simpa using ih⟩

/-- C8: round-trip — encoding any in-range 16-bit little-endian PCM sample
sequence as base64 and decoding it through `playRawPCM`'s normalisation yields
exactly `sample / 32768` for each sample (exact in `ℚ`, hence within
floating-point tolerance), and every produced float lies in `[-1, 1)`. -/
theorem playRawPCM_roundtrip (samples : List ℤ)
    (h : ∀ s ∈ samples, -32768 ≤ s ∧ s < 32768) :
    playRawPCMFloats (pcmToBase64 samples)
      = List.map (fun s : ℤ => (s : ℚ) / 32768) samples ∧
    ∀ q ∈ playRawPCMFloats (pcmToBase64 samples), -1 ≤ q ∧ q < 1 := by
  have h1 : atobChars (btoaBytes (pcmEncode samples)) = pcmEncode samples :=
    atob_btoa _ (pcmEncode_bytes_lt samples)
  have h2 : bytesToInt16 (pcmEncode samples) = samples :=
    bytesToInt16_pcmEncode samples h
  have hmain : playRawPCMFloats (pcmToBase64 samples)
      = List.map (fun s : ℤ => (s : ℚ) / 32768) samples := by
    simp only [playRawPCMFloats, pcmToBase64]
    rw [h1, h2]
  refine ⟨hmain, fun q hq => ?_⟩
  rw [hmain] at hq
  obtain ⟨s, hs, rfl⟩ := List.mem_map.mp hq
  obtain ⟨hlo, hhi⟩ := h s hs
  have hc : (0 : ℚ) < 32768 := by norm_num
  constructor
  · rw [le_div_iff₀ hc]
    have hcast : (-32768 : ℚ) ≤ (s : ℚ) := by exact_mod_cast hlo
    linarith
  · rw [div_lt_one hc]
    exact_mod_cast hhi

/-- Witness for C8 at a concrete sample sequence covering zero, the extreme
positive and the extreme negative sample. -/
theorem playRawPCM_roundtrip_witness :
    playRawPCMFloats (pcmToBase64 [0, 32767, -32768])
      = [(0 : ℚ), 32767 / 32768, -32768 / 32768] := by
  have h := (playRawPCM_roundtrip [0, 32767, -32768] (by decide)).1
  rw [h]
  norm_num
